import Mathlib

/-!
Verification of the InterviewAce resume-parsing pipeline.

This file gives a shallow embedding, in Lean 4, of the pure computational
core of the pipeline:

* the ML-inference confidence blend and the 0.7 acceptance gate of
  `src/ai-services/resume_parser.py` (`parse_fn`, `parse_resume`);
* the train/validation split of
  `src/ai-services/fine_tuning/prepare_resume_dataset.py` (`main`);
* the feature extractors and the quality scorer of the same file
  (`extract_experience_summary`, `calculate_experience_years`,
  `calculate_quality_score`);
* the bag-of-words vectorizers of `train_lora.py` (`simple_vectorize`) and
  of the serving path (`vectorize_text`), and the skill-vocabulary builder
  (`build_skill_vocab`).

Python floats are modelled as rationals (`ℚ`), Python ints as `ℤ`/`ℕ`;
all values reached by the concrete inputs used below are exactly
representable in double precision, so the rational model agrees with the
float execution on them.
-/

namespace InterviewAce

/-! ### Confidence blend (resume_parser.py, `parse_fn`, lines 160-173)

`skills_probs` is the vector of per-skill sigmoid outputs; the embedded
functions take it as a list of rationals.  The Python code reads

  skills_confidence = float(torch.mean(torch.abs(skills_probs - 0.5) * 2).item())
  score_confidence = 1.0 - min(1.0, abs(predicted_score - 50) / 50)
  overall_confidence = (skills_confidence * 0.6 + score_confidence * 0.4)

and `parse_resume` (line 337) accepts the ML output iff
`confidence >= 0.7`. -/

/-- Mean of `|p - 0.5| * 2` over the skill probabilities
(`torch.mean(torch.abs(skills_probs - 0.5) * 2)`). -/
def skillsConfidence (probs : List ℚ) : ℚ :=
  (probs.map (fun p => |p - 1/2| * 2)).sum / probs.length

/-- `predicted_score = max(0, min(100, predicted_score))` (line 167). -/
def clampScore (s : ℚ) : ℚ :=
  max 0 (min 100 s)

/-- `score_confidence = 1.0 - min(1.0, abs(predicted_score - 50) / 50)` (line 172). -/
def scoreConfidence (s : ℚ) : ℚ :=
  1 - min 1 (|s - 50| / 50)

/-- `overall_confidence = skills_confidence * 0.6 + score_confidence * 0.4` (line 173). -/
def overallConfidence (probs : List ℚ) (score : ℚ) : ℚ :=
  skillsConfidence probs * (6/10) + scoreConfidence score * (4/10)

/-- The acceptance gate of `parse_resume` (line 337): the ML output is
authoritative iff `confidence >= 0.7`. -/
def acceptsMlOutput (conf : ℚ) : Bool :=
  7/10 ≤ conf

/-! ### Train/validation split (prepare_resume_dataset.py, `main`, lines 339-345)

  split_idx = int(len(examples) * (1 - args.val_split))
  train_examples = examples[:split_idx]
  val_examples = examples[split_idx:]

Python's `int()` truncates toward zero; for `0 ≤ val_split ≤ 1` the value
being truncated is nonnegative, where truncation coincides with `⌊·⌋`. -/

/-- `split_idx = int(len(examples) * (1 - val_split))`. -/
def splitIdx (n : ℕ) (valSplit : ℚ) : ℕ :=
  (⌊(n : ℚ) * (1 - valSplit)⌋).toNat

/-- `examples[:split_idx]` and `examples[split_idx:]`. -/
def splitDataset {α : Type} (examples : List α) (valSplit : ℚ) : List α × List α :=
  (examples.take (splitIdx examples.length valSplit),
   examples.drop (splitIdx examples.length valSplit))

/-! ### String helpers modelling Python built-ins

The repository's sentinel strings and keywords are all ASCII, so
`Char.toLower` (ASCII-only) models `str.lower()` faithfully on every
string the pipeline compares against. -/

/-- `s.lower()` (ASCII model). -/
def pyLower (s : String) : String :=
  ⟨s.data.map Char.toLower⟩

/-- `s.strip()`: drop leading and trailing whitespace. -/
def pyStrip (s : String) : String :=
  ⟨((s.data.dropWhile Char.isWhitespace).reverse.dropWhile Char.isWhitespace).reverse⟩

/-- `s[:n]` for a nonnegative slice bound. -/
def pyTake (n : ℕ) (s : String) : String :=
  ⟨s.data.take n⟩

/-- `sep.join(parts)`. -/
def joinSep (sep : String) : List String → String
  | [] => ""
  | [x] => x
  | x :: xs => x ++ sep ++ joinSep sep xs

/-! ### Resume record (prepare_resume_dataset.py data model)

Only the sections consumed by the functions under verification are
modelled.  A missing key in the Python dict defaults to `""`/`[]`, which
is how an absent field is represented here. -/

/-- `experience[i]["dates"]` with keys `start`, `end`, `duration`. -/
structure Dates where
  start : String
  endDate : String
  duration : String

/-- One entry of `resume["experience"]`. -/
structure Experience where
  title : String
  company : String
  dates : Dates
  responsibilities : List String

/-- One entry of `resume["projects"]`. -/
structure Project where
  name : String
  description : String
  impact : String

/-- `resume["personal_info"]`. -/
structure PersonalInfo where
  summary : String
  email : String

/-- `resume["certifications"]`: the code distinguishes a string from a
list (`isinstance` checks); the absent default is the empty list. -/
inductive Certifications where
  | ofString (s : String)
  | ofList (l : List String)

/-- The resume record, restricted to the consumed sections. -/
structure Resume where
  personal_info : PersonalInfo
  experience : List Experience
  projects : List Project
  certifications : Certifications

/-! ### `extract_experience_summary` (prepare_resume_dataset.py, lines 52-63)

  for exp in experiences:
      title = exp.get("title", "").strip()
      company = exp.get("company", "").strip()
      if title and company and title.lower() not in ["unknown", "not provided"]:
          summary_parts.append(f"{title} at {company}")
  return ", ".join(summary_parts[:5])

Note the sentinel check is applied to the title only. -/

/-- `extract_experience_summary(resume)`. -/
def extract_experience_summary (r : Resume) : String :=
  joinSep ", "
    ((r.experience.foldl
      (fun acc exp =>
        if pyStrip exp.title ≠ "" ∧ pyStrip exp.company ≠ "" ∧
            pyLower (pyStrip exp.title) ≠ "unknown" ∧
            pyLower (pyStrip exp.title) ≠ "not provided"
        then acc ++ [pyStrip exp.title ++ " at " ++ pyStrip exp.company]
        else acc)
      []).take 5)

/-! ### `calculate_experience_years` (prepare_resume_dataset.py, lines 92-129) -/

/-- Numeric value of the maximal digit run at the head of `cs`. -/
def digitRunVal (cs : List Char) : ℕ :=
  (cs.takeWhile Char.isDigit).foldl (fun n c => 10 * n + (c.toNat - 48)) 0

/-- `re.search(r'(\d+)\s*' + word, s)`: leftmost position where a digit
run, optional whitespace, and the literal `word` follow each other;
returns the digit run's value.  (The regex's greedy `\d+`/`\s*` never
backtrack here because `word` starts with a letter.) -/
def numBeforeWord (word : List Char) : List Char → Option ℕ
  | [] => none
  | c :: cs =>
    if c.isDigit ∧
        word.isPrefixOf (((c :: cs).dropWhile Char.isDigit).dropWhile Char.isWhitespace)
    then some (digitRunVal (c :: cs))
    else numBeforeWord word cs

/-- `re.search(r'(\d+)\s*year', s)`. -/
def yearNumMatch (s : String) : Option ℕ :=
  numBeforeWord "year".data s.data

/-- `re.search(r'(\d+)\s*month', s)`. -/
def monthNumMatch (s : String) : Option ℕ :=
  numBeforeWord "month".data s.data

/-- Split a character list at `'-'` separators (model of `str.split("-")`
as used by `%Y-%m` parsing below). -/
def splitDash : List Char → List (List Char)
  | [] => [[]]
  | c :: cs =>
    if c = '-' then [] :: splitDash cs
    else
      match splitDash cs with
      | [] => [[c]]
      | g :: gs => (c :: g) :: gs

/-- `datetime.strptime(s, "%Y-%m")`: a 1-4 digit year (`datetime`
requires year ≥ 1), a literal dash, and a 1-2 digit month in `1..12`;
anything else raises `ValueError`, modelled as `none`. -/
def parseYM (s : String) : Option (ℕ × ℕ) :=
  match splitDash s.data with
  | [ys, ms] =>
    if ys ≠ [] ∧ ys.length ≤ 4 ∧ ys.all Char.isDigit ∧
        ms ≠ [] ∧ ms.length ≤ 2 ∧ ms.all Char.isDigit ∧
        1 ≤ digitRunVal ys ∧ 1 ≤ digitRunVal ms ∧ digitRunVal ms ≤ 12
    then some (digitRunVal ys, digitRunVal ms)
    else none
  | _ => none

/-- Leap year in the proleptic Gregorian calendar. -/
def isLeap (y : ℕ) : Bool :=
  (y % 4 = 0 && y % 100 ≠ 0) || y % 400 = 0

/-- Days in the months strictly before month `m` of year `y`. -/
def daysBeforeMonth (y m : ℕ) : ℕ :=
  [0, 31, 59, 90, 120, 151, 181, 212, 243, 273, 304, 334].getD (m - 1) 0 +
    (if 2 < m ∧ isLeap y then 1 else 0)

/-- `date(y, m, 1).toordinal()`: days since 0001-01-01 plus one, exactly
as in CPython's `datetime`.  Differences of ordinals are `delta.days`. -/
def ordinalYM (y m : ℕ) : ℕ :=
  365 * (y - 1) + (y - 1) / 4 - (y - 1) / 100 + (y - 1) / 400 + daysBeforeMonth y m + 1

/-- Python's `round(x, 1)` (round-half-to-even), on the exact rational. -/
def roundHalfEven (x : ℚ) : ℤ :=
  if x - ⌊x⌋ < 1/2 then ⌊x⌋
  else if 1/2 < x - ⌊x⌋ then ⌊x⌋ + 1
  else if ⌊x⌋ % 2 = 0 then ⌊x⌋ else ⌊x⌋ + 1

/-- `round(x, 1)`. -/
def roundTo1 (x : ℚ) : ℚ :=
  (roundHalfEven (x * 10) : ℚ) / 10

/-- The contribution of one experience entry to `total_years`
(the loop body of `calculate_experience_years`, lines 97-127).
`nowOrdinal` stands for `datetime.now()`'s ordinal (the code consults it
only when the end date reads "present"/"current").  `delta.days / 365.25`
is the exact rational `delta * 4 / 1461`. -/
def entryYears (d : Dates) (nowOrdinal : ℤ) : ℚ :=
  if d.duration ≠ "" ∧ pyLower d.duration ≠ "unknown" ∧
      pyLower d.duration ≠ "not provided" ∧ pyLower d.duration ≠ "present" then
    (match yearNumMatch (pyLower d.duration) with
      | some n => (n : ℚ)
      | none => 0) +
    (match monthNumMatch (pyLower d.duration) with
      | some n => (n : ℚ) / 12
      | none => 0)
  else if d.start ≠ "" ∧ d.endDate ≠ "" ∧ pyLower d.start ≠ "unknown" ∧
      pyLower d.start ≠ "not provided" then
    match parseYM (pyTake 7 d.start) with
    | none => 0
    | some (ys, ms) =>
      if pyLower d.endDate = "present" ∨ pyLower d.endDate = "current" ∨
          pyLower d.endDate = "" then
        ((nowOrdinal - (ordinalYM ys ms : ℤ) : ℤ) : ℚ) * 4 / 1461
      else
        match parseYM (pyTake 7 d.endDate) with
        | none => 0
        | some (ye, me) =>
          (((ordinalYM ye me : ℤ) - (ordinalYM ys ms : ℤ) : ℤ) : ℚ) * 4 / 1461
  else 0

/-- `calculate_experience_years(resume)`: sum of the per-entry
contributions, rounded to one decimal place. -/
def calculate_experience_years (r : Resume) (nowOrdinal : ℤ) : ℚ :=
  roundTo1 (r.experience.foldl (fun acc e => acc + entryYears e.dates nowOrdinal) 0)

/-! ### `calculate_quality_score` (prepare_resume_dataset.py, lines 132-220) -/

/-- Experience-depth sub-score (lines 137-149). -/
def experienceDepthScore (y : ℚ) : ℤ :=
  if 10 ≤ y then 30
  else if 7 ≤ y then 25
  else if 5 ≤ y then 20
  else if 3 ≤ y then 15
  else if 1 ≤ y then 10
  else if 0 < y then 5
  else 0

/-- Skills-richness sub-score (lines 151-162). -/
def skillsRichnessScore (n : ℕ) : ℤ :=
  if 15 ≤ n then 25
  else if 10 ≤ n then 20
  else if 7 ≤ n then 15
  else if 5 ≤ n then 10
  else if 3 ≤ n then 5
  else 0

/-- `re.search(r'\d+%|\d+\+|\d+\s*(users|clients|projects|years)', s)`
as a Boolean: some position starts a digit run followed by `%`, `+`, or
optional whitespace and one of the four words. -/
def quantTail (cs : List Char) : Bool :=
  (match cs.dropWhile Char.isDigit with
    | '%' :: _ => true
    | '+' :: _ => true
    | _ => false) ||
  (["users".data, "clients".data, "projects".data, "years".data].any
    (fun w => w.isPrefixOf ((cs.dropWhile Char.isDigit).dropWhile Char.isWhitespace)))

/-- Scan all start positions for the quantifiable-result pattern. -/
def quantSearch : List Char → Bool
  | [] => false
  | c :: cs => (c.isDigit && quantTail (c :: cs)) || quantSearch cs

/-- `has_quantifiable` (lines 169-175): some responsibility line matches
the quantifiable-result regex on its lower-cased text. -/
def hasQuantifiable (r : Resume) : Bool :=
  r.experience.any (fun e => e.responsibilities.any
    (fun resp => quantSearch (pyLower resp).data))

/-- `has_project_impact` (lines 178-182). -/
def hasProjectImpact (r : Resume) : Bool :=
  r.projects.any (fun p =>
    p.impact ≠ "" ∧ pyLower p.impact ≠ "unknown" ∧ pyLower p.impact ≠ "not provided")

/-- Achievement-quality sub-score (lines 164-191). -/
def achievementScore (r : Resume) : ℤ :=
  if hasQuantifiable r ∧ hasProjectImpact r then 25
  else if hasQuantifiable r ∨ hasProjectImpact r then 15
  else if 2 ≤ r.experience.length then 10
  else if 1 ≤ r.experience.length then 5
  else 0

/-- `education_priority.get(education_level.lower(), 0)` (lines 194-198). -/
def educationScore (lvl : String) : ℤ :=
  if pyLower lvl = "phd" ∨ pyLower lvl = "ph.d" ∨ pyLower lvl = "doctorate" then 10
  else if pyLower lvl = "me" ∨ pyLower lvl = "m.e" ∨ pyLower lvl = "ms" ∨
      pyLower lvl = "m.s" ∨ pyLower lvl = "master" then 8
  else if pyLower lvl = "be" ∨ pyLower lvl = "b.e" ∨ pyLower lvl = "bs" ∨
      pyLower lvl = "b.s" ∨ pyLower lvl = "bachelor" then 6
  else if pyLower lvl = "diploma" then 3
  else 0

/-- Certifications bonus (lines 202-206). -/
def certificationBonus : Certifications → ℤ
  | .ofString s =>
    if pyStrip s ≠ "" ∧ pyLower s ≠ "unknown" ∧ pyLower s ≠ "not provided" then 2 else 0
  | .ofList l => if 0 < l.length then min 2 (l.length : ℤ) else 0

/-- `has_summary = bool(resume.get("personal_info", {}).get("summary", "").strip())` (line 209). -/
def hasSummary (r : Resume) : Bool :=
  pyStrip r.personal_info.summary ≠ ""

/-- `has_contact = bool(resume.get("personal_info", {}).get("email", "").strip())` (line 210). -/
def hasContact (r : Resume) : Bool :=
  pyStrip r.personal_info.email ≠ ""

/-- `has_projects = len(projects) > 0` (line 211). -/
def hasProjectsB (r : Resume) : Bool :=
  0 < r.projects.length

/-- Structure-completeness sub-score (lines 213-218):

  if has_summary and has_contact and has_projects: score += 10
  elif (has_summary and has_contact) or (has_summary and has_projects): score += 7
  elif has_summary or has_contact: score += 5
-/
def structureCompleteness (r : Resume) : ℤ :=
  if hasSummary r ∧ hasContact r ∧ hasProjectsB r then 10
  else if (hasSummary r ∧ hasContact r) ∨ (hasSummary r ∧ hasProjectsB r) then 7
  else if hasSummary r ∨ hasContact r then 5
  else 0

/-- `calculate_quality_score(resume, skills, experience_years, education_level)`
(lines 132-220): sum of the five sub-scores, clamped to `[0, 100]` by
`min(100, max(0, score))`. -/
def calculate_quality_score (r : Resume) (skills : List String)
    (experienceYears : ℚ) (educationLevel : String) : ℤ :=
  min 100 (max 0
    (experienceDepthScore experienceYears + skillsRichnessScore skills.length +
      achievementScore r + educationScore educationLevel +
      certificationBonus r.certifications + structureCompleteness r))

/-! ### Bag-of-words vectorizers

Training side (`train_lora.py`, `simple_vectorize`, lines 27-32):

  vec = torch.zeros(len(vocab), dtype=torch.float32)
  for token in text.lower().split():
      if token in vocab:
          vec[vocab[token]] += 1.0

Serving side (`resume_parser.py`, `vectorize_text`, lines 145-151): the
same four lines over the checkpoint's vocab.  Counts are small integers,
exactly representable in float32, so the vectors are modelled as `List ℕ`.
The vocabulary, a Python dict, is an association list with unique keys. -/

/-- Accumulator-based splitter behind `str.split()`. -/
def splitWsAux : List Char → List Char → List (List Char)
  | [], acc => if acc = [] then [] else [acc.reverse]
  | c :: cs, acc =>
    if c.isWhitespace then
      if acc = [] then splitWsAux cs []
      else acc.reverse :: splitWsAux cs []
    else splitWsAux cs (c :: acc)

/-- `text.lower().split()`: split on whitespace runs, dropping empties. -/
def pyTokens (s : String) : List String :=
  (splitWsAux (pyLower s).data []).map (fun cs => ⟨cs⟩)

/-- Python dict lookup (`vocab[token]` guarded by `token in vocab`). -/
def dictLookup (vocab : List (String × ℕ)) (k : String) : Option ℕ :=
  match vocab with
  | [] => none
  | (k', v) :: rest => if k = k' then some v else dictLookup rest k

/-- `simple_vectorize(text, vocab)` (train_lora.py, lines 27-32). -/
def simple_vectorize (text : String) (vocab : List (String × ℕ)) : List ℕ :=
  (pyTokens text).foldl
    (fun vec token =>
      match dictLookup vocab token with
      | some j => vec.set j (vec.getD j 0 + 1)
      | none => vec)
    (List.replicate vocab.length 0)

/-- `vectorize_text(text)` (resume_parser.py, lines 145-151), over the
checkpoint's vocab. -/
def vectorize_text (text : String) (vocab : List (String × ℕ)) : List ℕ :=
  (pyTokens text).foldl
    (fun vec token =>
      match dictLookup vocab token with
      | some j => vec.set j (vec.getD j 0 + 1)
      | none => vec)
    (List.replicate vocab.length 0)

/-! ### Skill vocabulary (train_lora.py, `build_skill_vocab`, lines 110-126) -/

/-- `Counter` increment: bump an existing key or append a new one
(Python dicts and `Counter`s preserve first-insertion order). -/
def counterAdd : List (String × ℕ) → String → List (String × ℕ)
  | [], k => [(k, 1)]
  | (k', c) :: rest, k =>
    if k = k' then (k', c + 1) :: rest else (k', c) :: counterAdd rest k

/-- Lines 113-118: `skill_counter[skill.lower()] += 1` for every
non-empty skill string of every item's `skills` list. -/
def skillCounter (items : List (List String)) : List (String × ℕ) :=
  items.foldl
    (fun cnt skills =>
      skills.foldl (fun cnt sk => if sk ≠ "" then counterAdd cnt (pyLower sk) else cnt) cnt)
    []

/-- Stable insertion into a descending-by-count list: the new element
goes before the first entry whose count is ≤ its own. -/
def insertByCount (x : String × ℕ) : List (String × ℕ) → List (String × ℕ)
  | [] => [x]
  | y :: ys => if y.2 ≤ x.2 then x :: y :: ys else y :: insertByCount x ys

/-- `sorted(filtered_skills.items(), key=lambda x: x[1], reverse=True)`:
Python's sort is stable, so ties keep insertion order; this stable
insertion sort has exactly that behaviour. -/
def sortByCountDesc : List (String × ℕ) → List (String × ℕ)
  | [] => []
  | x :: xs => insertByCount x (sortByCountDesc xs)

/-- `build_skill_vocab(ds, min_count)` (lines 110-126): count lowered
skills, keep counts ≥ `min_count`, sort by frequency descending
(stable), take the top 200, and assign indices by enumeration. -/
def build_skill_vocab (items : List (List String)) (minCount : ℕ) : List (String × ℕ) :=
  (((sortByCountDesc
      ((skillCounter items).filter (fun p => decide (minCount ≤ p.2)))).take 200).enum).map
    (fun p => (p.2.1, p.1))

/-- `predicted_skills = [skill for skill, idx in skill_vocab.items()
if idx in predicted_skill_indices.tolist()]` (resume_parser.py,
lines 162-163). -/
def predictedSkills (skillVocab : List (String × ℕ)) (indices : List ℕ) : List String :=
  (skillVocab.filter (fun p => decide (p.2 ∈ indices))).map Prod.fst

/-! ### Concrete records used by the counterexample theorems below -/

/-- A resume with no summary, a contact email, and one project — two of
the three structure categories hold, neither pair containing the
summary. -/
def c4Resume : Resume :=
  ⟨⟨"", "a@b.com"⟩, [], [⟨"p", "d", ""⟩], .ofList []⟩

/-- Number of the three structure categories that hold. -/
def categoriesHeld (r : Resume) : ℕ :=
  (if hasSummary r then 1 else 0) + (if hasContact r then 1 else 0) +
    (if hasProjectsB r then 1 else 0)

/-- A resume with one experience entry whose end date precedes its start
date by ten years. -/
def c5Resume : Resume :=
  ⟨⟨"", ""⟩, [⟨"Engineer", "Acme", ⟨"2017-08", "2007-08", ""⟩, []⟩], [], .ofList []⟩

/-- A resume with a well-formed experience title but the sentinel
company name "Unknown". -/
def c6Resume : Resume :=
  ⟨⟨"", ""⟩, [⟨"Engineer", "Unknown", ⟨"", "", ""⟩, []⟩], [], .ofList []⟩

/-! ### Serving-path gating (resume_parser.py, `_load_ml_parser` lines
105-121 and `parse_resume` lines 307-357)

`_load_ml_parser` returns `(None, None)` when torch is unavailable, when
the checkpoint file does not exist, or when loading raises; `parse_resume`
then skips the `if ml_parser:` block entirely and continues to the
AI-fallback path.  When a parser is returned, the ML output is used only
if its confidence reaches the 0.7 threshold; otherwise the same fallback
path runs. -/

/-- The environment facts `parse_resume` branches on. -/
structure ServeEnv where
  torchAvailable : Bool
  modelFileExists : Bool
  loadSucceeds : Bool
  mlConfidence : ℚ

/-- `_load_ml_parser()` returns a usable parser (not `(None, None)`). -/
def loadMlParserOk (env : ServeEnv) : Bool :=
  env.torchAvailable && env.modelFileExists && env.loadSucceeds

/-- The three terminal outcomes of `parse_resume`. -/
inductive ParseRoute where
  | errorShort
  | mlAccepted
  | aiFallback
deriving DecidableEq

/-- The branch structure of `parse_resume` (lines 317-357):
`strippedLen` is `len(text_content.strip())`. -/
def parseRoute (env : ServeEnv) (strippedLen : ℕ) : ParseRoute :=
  if strippedLen < 50 then .errorShort
  else if loadMlParserOk env then
    if 7/10 ≤ env.mlConfidence then .mlAccepted else .aiFallback
  else .aiFallback

end InterviewAce

namespace InterviewAce

/-! ## Theorems -/

/-- **C1.** The code contradicts the claimed confidence formula: with a
single skill probability of `1` (maximally separated from `0.5`) and a
predicted score of `100` (maximally far from the midpoint `50`), the
computed confidence is `0.6`, strictly below the `0.7` threshold, so the
model output is rejected and the parser falls back — whereas the claim
says such an output is accepted.  The code's `score_confidence` is
`1 - min(1, |s-50|/50)`, highest when the score is *near* 50, contrary to
its own comment "Higher if score is extreme". -/
theorem parse_fn_extreme_output_rejected :
    overallConfidence [1] 100 = 3/5 ∧
    acceptsMlOutput (overallConfidence [1] 100) = false ∧
    overallConfidence [(1:ℚ)/2] 50 = 2/5 ∧
    acceptsMlOutput (overallConfidence [(1:ℚ)/2] 50) = false := by
  have habs : |(1 : ℚ) - 1/2| = 1/2 := by rw [abs_of_nonneg] <;> norm_num
  have habs2 : |(1 : ℚ)/2 - 1/2| = 0 := by norm_num
  have habs3 : |(100 : ℚ) - 50| = 50 := by rw [abs_of_nonneg] <;> norm_num
  have habs4 : |(50 : ℚ) - 50| = 0 := by norm_num
  refine ⟨?_, ?_, ?_, ?_⟩ <;>
    simp only [overallConfidence, skillsConfidence, scoreConfidence, acceptsMlOutput,
      List.map_cons, List.map_nil, List.sum_cons, List.sum_nil, List.length_cons,
      List.length_nil, habs, habs2, habs3, habs4, decide_eq_false_iff_not] <;>
    norm_num

/-- **C2 counterexample.** For `N = 3` surviving examples and
`val_split = 0.2`, the code places `int(3 * 0.8) = 2` examples in the
training shard, but the claimed `⌈N·(1−r)⌉` is `3`. -/
theorem splitDataset_not_ceiling :
    (splitDataset [0, 1, 2] (1/5)).1.length = 2 ∧
    (⌈((3 : ℚ) * (1 - 1/5))⌉ : ℤ) = 3 := by
  have h : splitIdx 3 (1/5) = 2 := by
    unfold splitIdx
    rw [show ((3 : ℕ) : ℚ) * (1 - 1/5) = 12/5 by norm_num]
    rw [show ⌊(12/5 : ℚ)⌋ = 2 by norm_num]
    rfl
  constructor
  · simpa [splitDataset] using congrArg (fun k => (([0, 1, 2] : List ℕ).take k).length) h
  · rw [show ((3 : ℚ) * (1 - 1/5)) = 12/5 by norm_num]
    rw [Int.ceil_eq_iff]
    norm_num

/-- **C2 amended.** For every list of `N` surviving examples and
validation ratio `r` with `0 ≤ r ≤ 1`, the dataset builder puts exactly
`⌊N·(1−r)⌋` (floor, not ceiling) examples into the training shard and all
remaining examples into the validation shard, preserving source order
with no shuffling, and every example appears in exactly one split
(train ++ val = the source list). -/
theorem splitDataset_floor_split {α : Type} (l : List α) (r : ℚ)
    (h0 : 0 ≤ r) (h1 : r ≤ 1) :
    (splitDataset l r).1 ++ (splitDataset l r).2 = l ∧
    (splitDataset l r).1.length = (⌊(l.length : ℚ) * (1 - r)⌋).toNat ∧
    (splitDataset l r).2.length = l.length - (⌊(l.length : ℚ) * (1 - r)⌋).toNat := by
  have hle : splitIdx l.length r ≤ l.length := by
    have hx : (l.length : ℚ) * (1 - r) ≤ (l.length : ℚ) := by
      have h1r : 1 - r ≤ 1 := by linarith
      have hn : (0 : ℚ) ≤ (l.length : ℚ) := by positivity
      nlinarith
    have hfl : ⌊(l.length : ℚ) * (1 - r)⌋ ≤ (l.length : ℤ) := by
      calc ⌊(l.length : ℚ) * (1 - r)⌋ ≤ ⌊(l.length : ℚ)⌋ := Int.floor_le_floor hx
        _ = (l.length : ℤ) := Int.floor_natCast _
    have := Int.toNat_le_toNat hfl
    simpa [splitIdx] using this
  refine ⟨List.take_append_drop _ _, ?_, ?_⟩
  · show (l.take (splitIdx l.length r)).length = _
    rw [List.length_take, min_eq_left hle]
    rfl
  · show (l.drop (splitIdx l.length r)).length = _
    rw [List.length_drop]
    rfl

/-- **C3.** For every resume record and its derived skills list,
experience years, and education level, `calculate_quality_score` returns
an integer score in `[0, 100]`. -/
theorem calculate_quality_score_bounds (r : Resume) (skills : List String)
    (y : ℚ) (lvl : String) :
    0 ≤ calculate_quality_score r skills y lvl ∧
    calculate_quality_score r skills y lvl ≤ 100 := by
  unfold calculate_quality_score
  exact ⟨le_min (by norm_num) (le_max_left 0 _), min_le_left _ _⟩

/-- **C4 counterexample.** On a resume where exactly the two categories
contact-email and project hold (no summary), the structure-completeness
sub-score is `5`, not the `7` the claim promises for any two of the
three. -/
theorem structureCompleteness_pair_without_summary :
    hasSummary c4Resume = false ∧ hasContact c4Resume = true ∧
    hasProjectsB c4Resume = true ∧
    structureCompleteness c4Resume = 5 ∧ ¬ structureCompleteness c4Resume = 7 := by
  decide

/-- **C4 amended.** The structure-completeness sub-score awards +10 when
all three categories hold; +7 only when exactly two hold *and* one of
them is the summary; +5 when the summary or the contact email holds
(covering the contact+project pair and the summary-only / contact-only
cases); and 0 otherwise — in particular a lone project scores 0, not 5. -/
theorem structureCompleteness_cases (r : Resume) :
    structureCompleteness r =
      if categoriesHeld r = 3 then 10
      else if categoriesHeld r = 2 ∧ hasSummary r then 7
      else if hasSummary r ∨ hasContact r then 5
      else 0 := by
  cases h1 : hasSummary r <;> cases h2 : hasContact r <;> cases h3 : hasProjectsB r <;>
    simp [structureCompleteness, categoriesHeld, h1, h2, h3]

/-- Generic shape of the `summary_parts` accumulation loop: a left fold
appending `f x` whenever `p x` holds builds `(l.filter p).map f`. -/
theorem foldl_append_filter {α β : Type} (p : α → Prop) [DecidablePred p] (f : α → β) :
    ∀ (l : List α) (acc : List β),
      l.foldl (fun a x => if p x then a ++ [f x] else a) acc
        = acc ++ (l.filter (fun x => decide (p x))).map f := by
  intro l
  induction l with
  | nil => intro acc; simp
  | cons x xs ih =>
    intro acc
    by_cases h : p x
    · simp [h, ih, List.append_assoc]
    · simp [h, ih]

/-- **C6 counterexample.** An experience entry whose company is the
sentinel string "Unknown" is still included in the summary: the code
applies the sentinel filter to the title only, so the result is
"Engineer at Unknown", not the empty string the claim requires. -/
theorem extract_experience_summary_keeps_sentinel_company :
    extract_experience_summary c6Resume = "Engineer at Unknown" ∧
    pyLower (pyStrip "Unknown") = "unknown" := by
  decide

/-- **C6 amended.** `extract_experience_summary` returns the
comma-joined "Title at Company" strings of the first five experience
entries whose stripped title is non-empty and non-sentinel and whose
stripped company is merely non-empty — the company is *not* checked
against the sentinel strings. -/
theorem extract_experience_summary_filter_map (r : Resume) :
    extract_experience_summary r =
      joinSep ", "
        (((r.experience.filter (fun exp =>
            decide (pyStrip exp.title ≠ "" ∧ pyStrip exp.company ≠ "" ∧
              pyLower (pyStrip exp.title) ≠ "unknown" ∧
              pyLower (pyStrip exp.title) ≠ "not provided"))).map
          (fun exp => pyStrip exp.title ++ " at " ++ pyStrip exp.company)).take 5) := by
  unfold extract_experience_summary
  rw [foldl_append_filter]
  simp

/-- **C9.** Whenever an experience entry carries a non-empty,
non-sentinel `duration` string, the start/end fields are never
consulted: if the duration matches neither the "N year" nor the
"N month" pattern, the entry contributes exactly 0 years — for *every*
choice of start and end strings, including well-formed "YYYY-MM"
dates. -/
theorem entryYears_duration_shadows_dates (dur s e : String) (now : ℤ)
    (h1 : dur ≠ "") (h2 : pyLower dur ≠ "unknown")
    (h3 : pyLower dur ≠ "not provided") (h4 : pyLower dur ≠ "present")
    (h5 : yearNumMatch (pyLower dur) = none)
    (h6 : monthNumMatch (pyLower dur) = none) :
    entryYears ⟨s, e, dur⟩ now = 0 := by
  unfold entryYears
  rw [if_pos ⟨h1, h2, h3, h4⟩]
  rw [h5, h6]
  norm_num

/-- Witness for C9: the duration "3 weeks" matches neither pattern, so
the entry contributes 0 even though its start/end dates are parseable. -/
theorem entryYears_duration_shadows_dates_witness :
    entryYears ⟨"2017-08", "2019-08", "3 weeks"⟩ 0 = 0 :=
  entryYears_duration_shadows_dates "3 weeks" "2017-08" "2019-08" 0
    (by decide) (by decide) (by decide) (by decide) (by decide) (by decide)

/-- **C5.** The invariant `experience_years ≥ 0` fails on the code: for
an entry with well-formed dates `start = "2017-08"`, `end = "2007-08"`
(end before start), `delta.days` is `-3653` and
`calculate_experience_years` returns `-10.0`, a negative value. -/
theorem calculate_experience_years_negative :
    calculate_experience_years c5Resume 0 = -10 ∧
    calculate_experience_years c5Resume 0 < 0 := by
  have h1 : parseYM (pyTake 7 "2017-08") = some (2017, 8) := by decide
  have h2 : parseYM (pyTake 7 "2007-08") = some (2007, 8) := by decide
  have h3 : ((ordinalYM 2007 8 : ℤ) - (ordinalYM 2017 8 : ℤ)) = -3653 := by decide
  have hentry : entryYears ⟨"2017-08", "2007-08", ""⟩ 0 = -14612/1461 := by
    simp +decide only [entryYears, h1, h2]
    rw [h3]
    norm_num
  have hsum : List.foldl (fun acc e => acc + entryYears e.dates 0) 0 c5Resume.experience
      = -14612/1461 := by
    simp [c5Resume, hentry]
  have hyears : calculate_experience_years c5Resume 0 = -10 := by
    unfold calculate_experience_years
    rw [hsum]
    unfold roundTo1 roundHalfEven
    rw [show (-14612/1461 : ℚ) * 10 = -146120/1461 by norm_num]
    rw [show ⌊(-146120/1461 : ℚ)⌋ = -101 by norm_num]
    rw [if_neg (by norm_num), if_pos (by norm_num)]
    norm_num
  exact ⟨hyears, by rw [hyears]; norm_num⟩

/-- Value of each vector component after the vectorizing fold: the
initial value at `i` plus the number of tokens whose vocabulary index
is `i`. -/
theorem vec_foldl_getD (vocab : List (String × ℕ)) :
    ∀ (toks : List String) (vec : List ℕ) (i : ℕ), i < vec.length →
      (toks.foldl
        (fun vec token =>
          match dictLookup vocab token with
          | some j => vec.set j (vec.getD j 0 + 1)
          | none => vec) vec).getD i 0
        = vec.getD i 0 +
          (toks.filter (fun t => decide (dictLookup vocab t = some i))).length := by
  intro toks
  induction toks with
  | nil => intro vec i hi; simp
  | cons t ts ih =>
    intro vec i hi
    simp only [List.foldl_cons, List.filter_cons]
    cases h : dictLookup vocab t with
    | none =>
      simp only [h]
      rw [ih vec i hi]
      simp [h]
    | some j =>
      simp only [h]
      rw [ih (vec.set j (vec.getD j 0 + 1)) i (by simpa using hi)]
      have hset : (vec.set j (vec.getD j 0 + 1)).getD i 0
          = vec.getD i 0 + (if j = i then 1 else 0) := by
        rcases eq_or_ne j i with rfl | hne
        · simp [List.getD_eq_getElem?_getD, List.getElem?_set_self hi,
            List.getElem?_eq_getElem hi]
        · simp [List.getD_eq_getElem?_getD, List.getElem?_set_ne hne, hne]
      rw [hset]
      rcases eq_or_ne j i with rfl | hne
      · simp
        omega
      · simp [hne]

/-- **C7.** For every text and every vocabulary whose indices lie in
range (as the trainer's contiguous `[0, |vocab|)` assignment guarantees),
the inference-time `vectorize_text` and the training-time
`simple_vectorize` produce identical count vectors, and component `i`
counts exactly the lower-cased whitespace tokens of the text whose
vocabulary index is `i`; tokens outside the vocabulary contribute
nothing. -/
theorem vectorizers_agree (text : String) (vocab : List (String × ℕ))
    (hv : ∀ p ∈ vocab, p.2 < vocab.length) :
    vectorize_text text vocab = simple_vectorize text vocab ∧
    ∀ i, i < vocab.length →
      (simple_vectorize text vocab).getD i 0
        = ((pyTokens text).filter (fun t => decide (dictLookup vocab t = some i))).length := by
  refine ⟨rfl, fun i hi => ?_⟩
  unfold simple_vectorize
  rw [vec_foldl_getD vocab (pyTokens text) _ i (by simpa using hi)]
  simp [List.getD_eq_getElem?_getD, List.getElem?_replicate, hi]

/-- Witness for C7: on the text "B a a" with vocabulary
`{"a" ↦ 0, "b" ↦ 1}` both vectorizers yield `[2, 1]` and component 0
counts the two occurrences of "a". -/
theorem vectorizers_agree_witness :
    vectorize_text "B a a" [("a", 0), ("b", 1)] = simple_vectorize "B a a" [("a", 0), ("b", 1)] ∧
    (simple_vectorize "B a a" [("a", 0), ("b", 1)]).getD 0 0
      = ((pyTokens "B a a").filter
          (fun t => decide (dictLookup [("a", 0), ("b", 1)] t = some 0))).length ∧
    simple_vectorize "B a a" [("a", 0), ("b", 1)] = [2, 1] := by
  have h := vectorizers_agree "B a a" [("a", 0), ("b", 1)] (by decide)
  exact ⟨h.1, h.2 0 (by decide), by decide⟩

/-- **C8.** When no model checkpoint is available (torch missing, the
checkpoint file absent, or loading failing), `parse_resume` takes
exactly the same route as in the sub-threshold-confidence case: the
external generative-model fallback — not an error and not an empty
success. -/
theorem parse_resume_no_model_falls_back (env env' : ServeEnv) (n n' : ℕ)
    (hn : 50 ≤ n)
    (hmodel : env.torchAvailable = false ∨ env.modelFileExists = false ∨
      env.loadSucceeds = false)
    (hn' : 50 ≤ n')
    (hload : loadMlParserOk env' = true)
    (hconf : env'.mlConfidence < 7/10) :
    parseRoute env n = ParseRoute.aiFallback ∧
    parseRoute env n = parseRoute env' n' := by
  have hok : loadMlParserOk env = false := by
    rcases hmodel with h | h | h <;> simp [loadMlParserOk, h]
  have h1 : parseRoute env n = ParseRoute.aiFallback := by
    unfold parseRoute
    rw [if_neg (by omega)]
    simp [hok]
  have h2 : parseRoute env' n' = ParseRoute.aiFallback := by
    unfold parseRoute
    rw [if_neg (by omega)]
    simp [hload, not_le.mpr hconf]
  exact ⟨h1, h1.trans h2.symm⟩

/-- Witness for C8: a torch-less environment routes to fallback, the
same outcome as a loaded model reporting confidence 0.5. -/
theorem parse_resume_no_model_falls_back_witness :
    parseRoute ⟨false, false, false, 1⟩ 100 = ParseRoute.aiFallback ∧
    parseRoute ⟨false, false, false, 1⟩ 100 = parseRoute ⟨true, true, true, 1/2⟩ 100 :=
  parse_resume_no_model_falls_back ⟨false, false, false, 1⟩ ⟨true, true, true, 1/2⟩ 100 100
    (by norm_num) (Or.inl rfl) (by norm_num) (by decide) (by norm_num)

/-- ASCII lower-casing is idempotent. -/
theorem char_toLower_idem (c : Char) : c.toLower.toLower = c.toLower := by
  have hofNat : ∀ n : ℕ, Nat.isValidChar n → (Char.ofNat n).toNat = n := by
    intro n hn
    unfold Char.ofNat
    rw [dif_pos hn]
    rfl
  by_cases h : c.toNat ≥ 65 ∧ c.toNat ≤ 90
  · have h1 : c.toLower = Char.ofNat (c.toNat + 32) := by
      show (if c.toNat ≥ 65 ∧ c.toNat ≤ 90 then Char.ofNat (c.toNat + 32) else c) = _
      rw [if_pos h]
    have hv : Nat.isValidChar (c.toNat + 32) := by
      unfold Nat.isValidChar
      exact Or.inl (by omega)
    have h2 : (c.toLower).toNat = c.toNat + 32 := by
      rw [h1]; exact hofNat _ hv
    show (if (c.toLower).toNat ≥ 65 ∧ (c.toLower).toNat ≤ 90
          then Char.ofNat ((c.toLower).toNat + 32) else c.toLower) = c.toLower
    rw [if_neg (by rw [h2]; omega)]
  · have h1 : c.toLower = c := by
      show (if c.toNat ≥ 65 ∧ c.toNat ≤ 90 then Char.ofNat (c.toNat + 32) else c) = c
      rw [if_neg h]
    rw [h1, h1]

/-- `str.lower()` is idempotent. -/
theorem pyLower_idem (s : String) : pyLower (pyLower s) = pyLower s := by
  show String.mk ((s.data.map Char.toLower).map Char.toLower)
      = String.mk (s.data.map Char.toLower)
  rw [List.map_map]
  exact congrArg String.mk (List.map_congr_left (fun c _ => char_toLower_idem c))

/-- A key of `counterAdd cnt k` is `k` or a key of `cnt`. -/
theorem mem_counterAdd_key :
    ∀ (cnt : List (String × ℕ)) (k : String) (p : String × ℕ),
      p ∈ counterAdd cnt k → p.1 = k ∨ ∃ q ∈ cnt, p.1 = q.1 := by
  intro cnt
  induction cnt with
  | nil =>
    intro k p hp
    simp only [counterAdd, List.mem_singleton] at hp
    subst hp
    exact Or.inl rfl
  | cons y ys ih =>
    intro k p hp
    rcases y with ⟨k', c⟩
    simp only [counterAdd] at hp
    by_cases h : k = k'
    · rw [if_pos h] at hp
      rcases List.mem_cons.mp hp with rfl | hp
      · exact Or.inl h.symm
      · exact Or.inr ⟨p, List.mem_cons_of_mem _ hp, rfl⟩
    · rw [if_neg h] at hp
      rcases List.mem_cons.mp hp with rfl | hp
      · exact Or.inr ⟨(k', c), List.mem_cons_self _ _, rfl⟩
      · rcases ih k p hp with h1 | ⟨q, hq, h2⟩
        · exact Or.inl h1
        · exact Or.inr ⟨q, List.mem_cons_of_mem _ hq, h2⟩

/-- The inner skill loop preserves "all keys are lower-cased". -/
theorem innerFold_keys_lowered :
    ∀ (skills : List String) (cnt : List (String × ℕ)),
      (∀ p ∈ cnt, pyLower p.1 = p.1) →
      ∀ p ∈ skills.foldl
          (fun cnt sk => if sk ≠ "" then counterAdd cnt (pyLower sk) else cnt) cnt,
        pyLower p.1 = p.1 := by
  intro skills
  induction skills with
  | nil => intro cnt h p hp; exact h p hp
  | cons sk sks ih =>
    intro cnt h p hp
    simp only [List.foldl_cons] at hp
    refine ih _ ?_ p hp
    intro q hq
    by_cases hsk : sk ≠ ""
    · rw [if_pos hsk] at hq
      rcases mem_counterAdd_key _ _ _ hq with h1 | ⟨r, hr, h2⟩
      · rw [h1]; exact pyLower_idem sk
      · rw [h2]; exact h r hr
    · rw [if_neg hsk] at hq
      exact h q hq

/-- Every key of the skill counter is a lower-cased string. -/
theorem skillCounter_keys_lowered (items : List (List String)) :
    ∀ p ∈ skillCounter items, pyLower p.1 = p.1 := by
  suffices haux : ∀ (its : List (List String)) (cnt : List (String × ℕ)),
      (∀ p ∈ cnt, pyLower p.1 = p.1) →
      ∀ p ∈ its.foldl
          (fun cnt skills => skills.foldl
            (fun cnt sk => if sk ≠ "" then counterAdd cnt (pyLower sk) else cnt) cnt)
          cnt,
        pyLower p.1 = p.1 by
    intro p hp
    exact haux items [] (by simp) p hp
  intro its
  induction its with
  | nil => intro cnt h p hp; exact h p hp
  | cons s ss ih =>
    intro cnt h p hp
    simp only [List.foldl_cons] at hp
    exact ih _ (innerFold_keys_lowered s cnt h) p hp

/-- Insertion preserves membership (downwards). -/
theorem mem_insertByCount {x : String × ℕ} :
    ∀ {l : List (String × ℕ)} {p}, p ∈ insertByCount x l → p = x ∨ p ∈ l := by
  intro l
  induction l with
  | nil =>
    intro p hp
    simp only [insertByCount, List.mem_singleton] at hp
    exact Or.inl hp
  | cons y ys ih =>
    intro p hp
    simp only [insertByCount] at hp
    by_cases h : y.2 ≤ x.2
    · rw [if_pos h] at hp
      rcases List.mem_cons.mp hp with rfl | hp
      · exact Or.inl rfl
      · exact Or.inr hp
    · rw [if_neg h] at hp
      rcases List.mem_cons.mp hp with rfl | hp
      · exact Or.inr (List.mem_cons_self _ _)
      · rcases ih hp with h1 | h1
        · exact Or.inl h1
        · exact Or.inr (List.mem_cons_of_mem _ h1)

/-- The stable sort is a permutation-style membership preserver. -/
theorem mem_sortByCountDesc :
    ∀ {l : List (String × ℕ)} {p}, p ∈ sortByCountDesc l → p ∈ l := by
  intro l
  induction l with
  | nil => intro p hp; simpa [sortByCountDesc] using hp
  | cons y ys ih =>
    intro p hp
    simp only [sortByCountDesc] at hp
    rcases mem_insertByCount hp with rfl | hp
    · exact List.mem_cons_self _ _
    · exact List.mem_cons_of_mem _ (ih hp)

/-- The second component of an `enumFrom` element is an element. -/
theorem snd_mem_of_mem_enumFrom {α : Type} :
    ∀ (l : List α) (n : ℕ) (p : ℕ × α), p ∈ l.enumFrom n → p.2 ∈ l := by
  intro l
  induction l with
  | nil => intro n p hp; simp at hp
  | cons x xs ih =>
    intro n p hp
    rw [List.enumFrom_cons] at hp
    rcases List.mem_cons.mp hp with rfl | hp
    · exact List.mem_cons_self _ _
    · exact List.mem_cons_of_mem _ (ih (n + 1) p hp)

/-- Every key of the built skill vocabulary is lower-cased. -/
theorem build_skill_vocab_keys_lowered (items : List (List String)) (minCount : ℕ) :
    ∀ p ∈ build_skill_vocab items minCount, pyLower p.1 = p.1 := by
  intro p hp
  unfold build_skill_vocab at hp
  rcases List.mem_map.mp hp with ⟨q, hq, rfl⟩
  have h2 : q.2 ∈ (sortByCountDesc
      ((skillCounter items).filter (fun p => decide (minCount ≤ p.2)))).take 200 :=
    snd_mem_of_mem_enumFrom _ 0 q hq
  have h3 : q.2 ∈ skillCounter items :=
    List.mem_of_mem_filter (mem_sortByCountDesc (List.mem_of_mem_take h2))
  exact skillCounter_keys_lowered items q.2 h3

/-- **C10.** Every skill the ML inference adapter can predict is a
lower-cased string: `build_skill_vocab` lower-cases skills before
counting, and the predicted skill list is drawn from the vocabulary's
keys. -/
theorem predictedSkills_lowercase (items : List (List String)) (minCount : ℕ)
    (indices : List ℕ) (s : String)
    (hs : s ∈ predictedSkills (build_skill_vocab items minCount) indices) :
    pyLower s = s := by
  unfold predictedSkills at hs
  rcases List.mem_map.mp hs with ⟨p, hp, rfl⟩
  exact build_skill_vocab_keys_lowered items minCount p (List.mem_of_mem_filter hp)

/-- Witness for C10: from two resumes mentioning "Python" (mixed case),
the vocabulary holds "python" and prediction at index 0 returns it,
a fixed point of lower-casing. -/
theorem predictedSkills_lowercase_witness :
    "python" ∈ predictedSkills (build_skill_vocab [["Python"], ["Python", "SQL"]] 2) [0] ∧
    pyLower "python" = "python" := by
  have hmem : "python" ∈ predictedSkills (build_skill_vocab [["Python"], ["Python", "SQL"]] 2) [0] := by
    decide
  exact ⟨hmem, predictedSkills_lowercase [["Python"], ["Python", "SQL"]] 2 [0] "python" hmem⟩

/-- Witness for C2: five examples at `r = 0.2` split as 4 train + 1 val. -/
theorem splitDataset_floor_split_witness :
    (splitDataset [0, 1, 2, 3, 4] (1/5)).1 ++ (splitDataset [0, 1, 2, 3, 4] (1/5)).2
      = [0, 1, 2, 3, 4] ∧
    (splitDataset [0, 1, 2, 3, 4] (1/5)).1.length
      = (⌊(([0, 1, 2, 3, 4] : List ℕ).length : ℚ) * (1 - 1/5)⌋).toNat ∧
    (splitDataset [0, 1, 2, 3, 4] (1/5)).2.length
      = ([0, 1, 2, 3, 4] : List ℕ).length - (⌊(([0, 1, 2, 3, 4] : List ℕ).length : ℚ) * (1 - 1/5)⌋).toNat :=
  splitDataset_floor_split [0, 1, 2, 3, 4] (1/5) (by norm_num) (by norm_num)

end InterviewAce
